import Mathlib

/-!
Verification of the slot-allocation / waitlist-promotion core of the
obturo backend (Django app `stations`).

Shallow embedding conventions:
* Time is an `Int`, measured in minutes (so `timedelta(minutes=10)` is `10`,
  24 hours is `1440`, 7 days is `10080`).
* The database is a record of lists mirroring the Django tables
  `ChargingStation`, `Booking`, `Waitlist`, `UserPenalty`.
* Each view / service function becomes a pure function from a `DB` (plus an
  injected clock value `now`) to a result and an updated `DB`.
* Django querysets `filter(...)`, `order_by(...)`, `count()` become
  `List.filter`, `List.insertionSort`, `List.countP`.  Where the source
  orders by a non-key column, the row id is used as the final tie break
  (the concrete order of equal keys is arbitrary in the source).
-/

namespace Obturo

/-- Booking.status choices (`active`, `completed`, `cancelled`). -/
inductive BookingStatus
  | active
  | completed
  | cancelled
deriving DecidableEq, Repr

/-- `ChargingStation` (only the columns the core reads). -/
structure Station where
  id : Nat
  total_slots : Int
  available_slots : Int
deriving DecidableEq, Repr

/-- `Booking` row. -/
structure Booking where
  id : Nat
  user : Nat
  station : Nat
  start_time : Int
  end_time : Int
  status : BookingStatus
deriving DecidableEq, Repr

/-- `Waitlist` row. -/
structure WaitlistEntry where
  id : Nat
  user : Nat
  station : Nat
  position : Int
  notified : Bool
  created_at : Int
deriving DecidableEq, Repr

/-- `UserPenalty` row. -/
structure UserPenalty where
  user : Nat
  no_show_count : Int
  late_cancel_count : Int
  penalty_points : Int
  blocked_until : Option Int
deriving DecidableEq, Repr

/-- The persistent state touched by the core, with id counters for the
auto-increment primary keys of `Booking` and `Waitlist`. -/
structure DB where
  stations : List Station
  bookings : List Booking
  waitlist : List WaitlistEntry
  penalties : List UserPenalty
  nextBookingId : Nat
  nextWaitlistId : Nat
deriving DecidableEq, Repr

/-- `ChargingStation.objects.get(id=sid)` (first row with that id). -/
def findStation (db : DB) (sid : Nat) : Option Station :=
  db.stations.find? (fun s => s.id == sid)

/-- `UserPenalty.objects.filter(user=u).first()` on a penalty list. -/
def findPenaltyL (ps : List UserPenalty) (u : Nat) : Option UserPenalty :=
  ps.find? (fun p => p.user == u)

def findPenalty (db : DB) (u : Nat) : Option UserPenalty :=
  findPenaltyL db.penalties u

/-- The record produced by `UserPenalty.objects.get_or_create(user=u)`:
the stored row if present, otherwise a fresh row with field defaults. -/
def getOrCreatePenalty (db : DB) (u : Nat) : UserPenalty :=
  (findPenalty db u).getD
    { user := u, no_show_count := 0, late_cancel_count := 0,
      penalty_points := 0, blocked_until := none }

/-- Writing a penalty row back (`pen.save()` after a `get_or_create`):
replace the stored row for that user, or append a fresh one. -/
def savePenalty (db : DB) (pen : UserPenalty) : DB :=
  if (findPenalty db pen.user).isSome then
    { db with
      penalties := db.penalties.map (fun p => if p.user == pen.user then pen else p) }
  else
    { db with penalties := db.penalties ++ [pen] }

/-- Stored penalty points of a user (0 if no row). -/
def penalty_points_of (db : DB) (u : Nat) : Int :=
  (getOrCreatePenalty db u).penalty_points

def late_cancel_count_of (db : DB) (u : Nat) : Int :=
  (getOrCreatePenalty db u).late_cancel_count

def no_show_count_of (db : DB) (u : Nat) : Int :=
  (getOrCreatePenalty db u).no_show_count

def blocked_until_of (db : DB) (u : Nat) : Option Int :=
  (getOrCreatePenalty db u).blocked_until

/-- The overlap predicate of `create_booking`:
`station=s, status="active", start_time__lt=end, end_time__gt=start`. -/
def overlapB (sid : Nat) (s_t e_t : Int) (b : Booking) : Bool :=
  b.station == sid && b.status == BookingStatus.active
    && decide (b.start_time < e_t) && decide (s_t < b.end_time)

/-- `Booking.objects.filter(station, status="active", start_time__lt=end,
end_time__gt=start).count()` as an integer. -/
def overlap_countL (bs : List Booking) (sid : Nat) (s_t e_t : Int) : Int :=
  (bs.countP (overlapB sid s_t e_t) : Int)

def overlapping_count (db : DB) (sid : Nat) (s_t e_t : Int) : Int :=
  overlap_countL db.bookings sid s_t e_t

/-- Active bookings of a station covering a single instant `t`
(a booking covers `t` iff `start_time ≤ t < end_time`). -/
def coversB (sid : Nat) (t : Int) (b : Booking) : Bool :=
  b.station == sid && b.status == BookingStatus.active
    && decide (b.start_time ≤ t) && decide (t < b.end_time)

def at_instant_countL (bs : List Booking) (sid : Nat) (t : Int) : Int :=
  (bs.countP (coversB sid t) : Int)

/-- `Booking.objects.filter(station, status="active").count()` —
the free-slot computation of `promote_waitlist_for_station`. -/
def active_countL (bs : List Booking) (sid : Nat) : Int :=
  (bs.countP (fun b => b.station == sid && b.status == BookingStatus.active) : Int)

/-- Ordering key of `reorder_waitlist`: `order_by("created_at", "id")`. -/
def wlKeyLE (a b : WaitlistEntry) : Prop :=
  a.created_at < b.created_at ∨ (a.created_at = b.created_at ∧ a.id ≤ b.id)

instance : DecidableRel wlKeyLE := fun a b => by
  unfold wlKeyLE
  infer_instance

instance : IsTotal WaitlistEntry wlKeyLE := by
  constructor
  intro a b
  unfold wlKeyLE
  omega

instance : IsTrans WaitlistEntry wlKeyLE := by
  constructor
  intro a b c hab hbc
  unfold wlKeyLE at *
  omega

/-- Ordering key of `promote_waitlist_for_station`:
`order_by("position", "created_at")`, with the row id as final tie break. -/
def promoLE (a b : WaitlistEntry) : Prop :=
  a.position < b.position ∨
    (a.position = b.position ∧
      (a.created_at < b.created_at ∨ (a.created_at = b.created_at ∧ a.id ≤ b.id)))

instance : DecidableRel promoLE := fun a b => by
  unfold promoLE
  infer_instance

instance : IsTotal WaitlistEntry promoLE := by
  constructor
  intro a b
  unfold promoLE
  omega

instance : IsTrans WaitlistEntry promoLE := by
  constructor
  intro a b c hab hbc
  unfold promoLE at *
  omega

/-- `Waitlist.objects.filter(station=station)` on a waitlist table. -/
def station_entriesL (wl : List WaitlistEntry) (sid : Nat) : List WaitlistEntry :=
  wl.filter (fun e => e.station == sid)

def station_entries (db : DB) (sid : Nat) : List WaitlistEntry :=
  station_entriesL db.waitlist sid

/-- Assign positions `n, n+1, ...` to a list of entries (the
`for idx, entry in enumerate(entries, start=1)` loop of `reorder_waitlist`). -/
def assign_positions : Int → List WaitlistEntry → List WaitlistEntry
  | _, [] => []
  | n, e :: es => { e with position := n } :: assign_positions (n + 1) es

/-- `reorder_waitlist(station)`: re-number the station's entries densely
`1..N` in `("created_at", "id")` order; rows of other stations are kept. -/
def reorder_waitlist (db : DB) (sid : Nat) : DB :=
  let sorted := List.insertionSort wlKeyLE (db.waitlist.filter (fun e => e.station == sid))
  let others := db.waitlist.filter (fun e => !(e.station == sid))
  { db with waitlist := others ++ assign_positions 1 sorted }

/-- Result of `create_booking` (the HTTP responses of the view). -/
inductive RequestResult
  | blocked (untilT : Int)
  | invalidRange
  | stationNotFound
  | alreadyWaitlisted (position : Int)
  | waitlisted (position : Int)
  | booked (booking_id : Nat)
deriving DecidableEq, Repr

/-- `Waitlist.objects.filter(station=station).order_by("-position").first()`,
projected to its position (the view only reads `.position`). -/
def last_position (db : DB) (sid : Nat) : Option Int :=
  (station_entries db sid).foldl
    (fun acc w =>
      match acc with
      | none => some w.position
      | some m => some (max m w.position)) none

/-- The body of `create_booking` after the blocked-user gate: validation,
station lookup, overlap check, then booking creation or waitlisting. -/
def create_booking_main (db : DB) (now : Int) (u sid : Nat) (s_t e_t : Int) :
    RequestResult × DB :=
  if e_t ≤ s_t then (.invalidRange, db)
  else
    match findStation db sid with
    | none => (.stationNotFound, db)
    | some station =>
      let overlapping := overlapping_count db sid s_t e_t
      if station.total_slots ≤ overlapping then
        match db.waitlist.find? (fun w => w.user == u && w.station == sid) with
        | some existing => (.alreadyWaitlisted existing.position, db)
        | none =>
          let next_pos :=
            match last_position db sid with
            | some p => p + 1
            | none => 1
          let entry : WaitlistEntry :=
            { id := db.nextWaitlistId, user := u, station := sid,
              position := next_pos, notified := false, created_at := now }
          let db1 := { db with waitlist := db.waitlist ++ [entry],
                               nextWaitlistId := db.nextWaitlistId + 1 }
          (.waitlisted next_pos, reorder_waitlist db1 sid)
      else
        let booking : Booking :=
          { id := db.nextBookingId, user := u, station := sid,
            start_time := s_t, end_time := e_t, status := .active }
        let stations' := db.stations.map (fun s =>
          if s.id == sid then { s with available_slots := max 0 (s.available_slots - 1) }
          else s)
        (.booked db.nextBookingId,
          { db with bookings := db.bookings ++ [booking],
                    stations := stations',
                    nextBookingId := db.nextBookingId + 1 })

/-- `create_booking` view: blocked-user gate (capping an over-long block to
5 minutes from now and saving the cap), then the main body. -/
def create_booking (db : DB) (now : Int) (u sid : Nat) (s_t e_t : Int) :
    RequestResult × DB :=
  match findPenalty db u with
  | some pen =>
    match pen.blocked_until with
    | some t =>
      if now < t then
        if now + 5 < t then
          (.blocked (now + 5), savePenalty db { pen with blocked_until := some (now + 5) })
        else
          (.blocked t, db)
      else
        create_booking_main db now u sid s_t e_t
    | none => create_booking_main db now u sid s_t e_t
  | none => create_booking_main db now u sid s_t e_t

/-- Outcome + updated state of `promote_waitlist_for_station`. -/
structure PromoteResult where
  bookings : List Nat
  users : List Nat
  db : DB
deriving DecidableEq, Repr

/-- The per-entry loop of `promote_waitlist_for_station`: create a booking
with the fixed default window `[now+5, now+35)` and delete the entry. -/
def promote_loop (sid : Nat) (now : Int) :
    List WaitlistEntry → List Booking × List WaitlistEntry × Nat →
      List Booking × List WaitlistEntry × Nat
  | [], st => st
  | e :: es, (bs, wl, nid) =>
    promote_loop sid now es
      (bs ++ [{ id := nid, user := e.user, station := sid,
                start_time := now + 5, end_time := now + 35,
                status := .active }],
       wl.filter (fun w => !(w.id == e.id)),
       nid + 1)

/-- `promote_waitlist_for_station(station, notify, max_promote)`.
The `notify` flag only triggers fire-and-forget push messages and has no
state effect, so it is dropped from the embedding. -/
def promote_waitlist_for_station (db : DB) (now : Int) (station : Station)
    (max_promote : Option Int) : PromoteResult :=
  let active_count := active_countL db.bookings station.id
  let free_slots := station.total_slots - active_count
  if free_slots ≤ 0 then { bookings := [], users := [], db := db }
  else
    let to_promote :=
      match max_promote with
      | none => free_slots
      | some m => min m free_slots
    let waiting :=
      (List.insertionSort promoLE
        (db.waitlist.filter (fun e => e.station == station.id))).take to_promote.toNat
    let res := promote_loop station.id now waiting (db.bookings, db.waitlist, db.nextBookingId)
    let db1 := { db with bookings := res.1, waitlist := res.2.1, nextBookingId := res.2.2 }
    { bookings := (List.range waiting.length).map (fun i => db.nextBookingId + i),
      users := waiting.map (fun e => e.user),
      db := reorder_waitlist db1 station.id }

/-- Result of the `cancel_booking` view. -/
inductive CancelResult
  | notFound
  | notActive
  | alreadyStarted
  | ok
deriving DecidableEq, Repr

/-- The inline late-cancel penalty block of `cancel_booking`:
`late_cancel_count += 1`, `penalty_points += 1`, save — and nothing else
(in particular no `blocked_until` update). -/
def late_cancel_penalty (db : DB) (u : Nat) : DB :=
  let pen := getOrCreatePenalty db u
  savePenalty db
    { pen with late_cancel_count := pen.late_cancel_count + 1,
               penalty_points := pen.penalty_points + 1 }

/-- The tail of `cancel_booking`: look the station up again (the source
holds the row object; a dangling foreign key is impossible there, so the
`none` arm is dead code) and run the immediate promotion. -/
def promote_after_cancel (db : DB) (now : Int) (sid : Nat) : CancelResult × DB :=
  match findStation db sid with
  | some st => (.ok, (promote_waitlist_for_station db now st none).db)
  | none => (.ok, db)

/-- `cancel_booking` view: ownership lookup, status and start checks,
late-cancel penalty (no block change), cancellation, slot release
(clamped to `total_slots`), then immediate promotion. -/
def cancel_booking (db : DB) (now : Int) (u bid : Nat) : CancelResult × DB :=
  match db.bookings.find? (fun b => b.id == bid && b.user == u) with
  | none => (.notFound, db)
  | some booking =>
    if booking.status ≠ BookingStatus.active then (.notActive, db)
    else if booking.start_time ≤ now then (.alreadyStarted, db)
    else
      let db1 :=
        if booking.start_time - now ≤ 10 then late_cancel_penalty db u
        else db
      let db2 := { db1 with
        bookings := db1.bookings.map (fun (b : Booking) =>
          if b.id == bid then { b with status := .cancelled } else b) }
      let db3 := { db2 with
        stations := db2.stations.map (fun (s : Station) =>
          if s.id == booking.station then
            { s with available_slots := min s.total_slots (s.available_slots + 1) }
          else s) }
      promote_after_cancel db3 now booking.station

namespace Scheduler

/-- `scheduler.add_penalty`: add points, bump the no-show counter, and set
`blocked_until` to now + 7 days at ≥ 5 points, else now + 24 hours at ≥ 3. -/
def add_penalty (db : DB) (now : Int) (u : Nat) (points : Int) : DB :=
  let pen := getOrCreatePenalty db u
  let pen := { pen with penalty_points := pen.penalty_points + points,
                        no_show_count := pen.no_show_count + 1 }
  let pen :=
    if 5 ≤ pen.penalty_points then { pen with blocked_until := some (now + 10080) }
    else if 3 ≤ pen.penalty_points then { pen with blocked_until := some (now + 1440) }
    else pen
  savePenalty db pen

/-- `scheduler.promote_from_queue`: notify the earliest-created unnotified
entry of the station and set its `notified` flag; no booking is created and
no entry is removed. -/
def promote_from_queue (db : DB) (sid : Nat) : DB :=
  match (List.insertionSort wlKeyLE
      (db.waitlist.filter (fun e => e.station == sid && !e.notified))).head? with
  | none => db
  | some next =>
    { db with waitlist := db.waitlist.map (fun w =>
        if w.id == next.id then { w with notified := true } else w) }

/-- One expired booking of the sweep: optional no-show penalty, mark
completed, `available_slots += 1` (no clamp in the source), then
`promote_from_queue`. -/
def sweep_one (now : Int) (db : DB) (b : Booking) : DB :=
  let db :=
    if b.start_time + 10 < now then add_penalty db now b.user 1 else db
  let db := { db with
    bookings := db.bookings.map (fun (x : Booking) =>
      if x.id == b.id then { x with status := .completed } else x) }
  let db := { db with
    stations := db.stations.map (fun (s : Station) =>
      if s.id == b.station then { s with available_slots := s.available_slots + 1 }
      else s) }
  promote_from_queue db b.station

/-- `scheduler.mark_completed_bookings`: iterate over the active bookings
whose `end_time` has passed. -/
def mark_completed_bookings (db : DB) (now : Int) : DB :=
  (db.bookings.filter (fun b => b.status == BookingStatus.active && decide (b.end_time < now))).foldl
    (sweep_one now) db

end Scheduler

namespace Views

/-- `views.add_penalty` (the helper at the top of `views.py`): add points
and set a 5-minute block at ≥ 3 points.  Not called by `cancel_booking`,
which inlines its own penalty update instead. -/
def add_penalty (db : DB) (now : Int) (u : Nat) (points : Int) : DB :=
  let pen := getOrCreatePenalty db u
  let pen := { pen with penalty_points := pen.penalty_points + points }
  let pen :=
    if 3 ≤ pen.penalty_points then { pen with blocked_until := some (now + 5) }
    else pen
  savePenalty db pen

end Views

/-! ### Specification predicates -/

/-- The list of integers `n, n+1, ..., n+len-1`. -/
def intRange : Int → Nat → List Int
  | _, 0 => []
  | n, len + 1 => n :: intRange (n + 1) len

/-- The never-oversell invariant restricted to instants: at every time
instant, the active bookings of a station covering that instant never
exceed its capacity. -/
def NoOversell (db : DB) : Prop :=
  ∀ st ∈ db.stations, ∀ t : Int, at_instant_countL db.bookings st.id t ≤ st.total_slots

/-- The user has no block lying in the future of `now`. -/
def notBlocked (db : DB) (u : Nat) (now : Int) : Prop :=
  ∀ t, blocked_until_of db u = some t → t ≤ now

/-- Request outcomes that put (or keep) the user on the waitlist. -/
def isWaitlistOutcome : RequestResult → Bool
  | .alreadyWaitlisted _ => true
  | .waitlisted _ => true
  | _ => false

/-- Dense positions at a station: listed in `("created_at", "id")` order,
the positions of the station's waitlist rows are exactly `1..N`. -/
def DenseL (wl : List WaitlistEntry) (sid : Nat) : Prop :=
  (List.insertionSort wlKeyLE (station_entriesL wl sid)).map (fun e => e.position)
    = intRange 1 (station_entriesL wl sid).length

def Dense (db : DB) (sid : Nat) : Prop :=
  DenseL db.waitlist sid

/-! ### Concrete states used by counterexamples and witnesses -/

/-- A one-slot station. -/
def st1 : Station := { id := 1, total_slots := 1, available_slots := 1 }

/-- Empty database holding only the one-slot station. -/
def c1db0 : DB :=
  { stations := [st1], bookings := [], waitlist := [], penalties := [],
    nextBookingId := 1, nextWaitlistId := 1 }

/-- State after user 1 books `[10, 20)` at the one-slot station. -/
def c1db1 : DB := (create_booking c1db0 0 1 1 10 20).2

/-- State after user 2 additionally books the disjoint window `[5, 10)`. -/
def c1db2 : DB := (create_booking c1db1 0 2 1 5 10).2

/-- Waitlist where stored positions disagree with creation order: the
earlier-created entry (user 10, created 1) holds position 2, the
later-created entry (user 20, created 2) holds position 1. -/
def c4db : DB :=
  { stations := [st1], bookings := [],
    waitlist := [
      { id := 1, user := 10, station := 1, position := 2, notified := false, created_at := 1 },
      { id := 2, user := 20, station := 1, position := 1, notified := false, created_at := 2 }],
    penalties := [], nextBookingId := 1, nextWaitlistId := 3 }

/-- User 1 blocked until time 100, asking at time 0 (block longer than the
5-minute cap). -/
def c5db : DB :=
  { stations := [st1], bookings := [], waitlist := [],
    penalties := [{ user := 1, no_show_count := 0, late_cancel_count := 0,
                    penalty_points := 3, blocked_until := some 100 }],
    nextBookingId := 1, nextWaitlistId := 1 }

/-- User 1 at 2 penalty points with an active booking starting in 5 minutes
(a late cancel adds the third point via the cancel path). -/
def c2dbA : DB :=
  { stations := [{ id := 1, total_slots := 2, available_slots := 1 }],
    bookings := [{ id := 1, user := 1, station := 1, start_time := 5, end_time := 60,
                   status := .active }],
    waitlist := [],
    penalties := [{ user := 1, no_show_count := 0, late_cancel_count := 0,
                    penalty_points := 2, blocked_until := none }],
    nextBookingId := 2, nextWaitlistId := 1 }

/-- User 2 at 2 penalty points with an expired no-show booking (the expiry
sweep adds the third point via the scheduler path). -/
def c2dbB : DB :=
  { stations := [{ id := 1, total_slots := 2, available_slots := 1 }],
    bookings := [{ id := 1, user := 2, station := 1, start_time := -40, end_time := -5,
                   status := .active }],
    waitlist := [],
    penalties := [{ user := 2, no_show_count := 0, late_cancel_count := 0,
                    penalty_points := 2, blocked_until := none }],
    nextBookingId := 2, nextWaitlistId := 1 }

/-- One-slot station with an expired active booking of user 1 and a single
waiting user 2. -/
def c3db : DB :=
  { stations := [st1],
    bookings := [{ id := 1, user := 1, station := 1, start_time := -40, end_time := -5,
                   status := .active }],
    waitlist := [{ id := 1, user := 2, station := 1, position := 1, notified := false,
                   created_at := -50 }],
    penalties := [], nextBookingId := 2, nextWaitlistId := 2 }

/-- State of `c3db` after one reconciliation expiry sweep at time 0. -/
def c3dbAfter : DB := Scheduler.mark_completed_bookings c3db 0

/-- Full one-slot station (one active booking covering `[0, 100)`) with
user 1 already waitlisted at position 1. -/
def c8db : DB :=
  { stations := [st1],
    bookings := [{ id := 1, user := 5, station := 1, start_time := 0, end_time := 100,
                   status := .active }],
    waitlist := [{ id := 1, user := 1, station := 1, position := 1, notified := false,
                   created_at := -5 }],
    penalties := [], nextBookingId := 2, nextWaitlistId := 2 }

/-- Free one-slot station whose only waiting user (9) is blocked until
time 1000. -/
def c10db : DB :=
  { stations := [st1], bookings := [],
    waitlist := [{ id := 1, user := 9, station := 1, position := 1, notified := false,
                   created_at := 0 }],
    penalties := [{ user := 9, no_show_count := 0, late_cancel_count := 0,
                    penalty_points := 5, blocked_until := some 1000 }],
    nextBookingId := 1, nextWaitlistId := 2 }

/-- Active booking of user 1 starting 50 minutes from now (an early, not
late, cancellation). -/
def c7db : DB :=
  { stations := [{ id := 1, total_slots := 2, available_slots := 1 }],
    bookings := [{ id := 1, user := 1, station := 1, start_time := 50, end_time := 60,
                   status := .active }],
    waitlist := [], penalties := [], nextBookingId := 2, nextWaitlistId := 1 }

/-! ### Basic state-preservation lemmas -/

theorem savePenalty_stations (db : DB) (pen : UserPenalty) :
    (savePenalty db pen).stations = db.stations := by
  unfold savePenalty
  split <;> rfl

theorem savePenalty_bookings (db : DB) (pen : UserPenalty) :
    (savePenalty db pen).bookings = db.bookings := by
  unfold savePenalty
  split <;> rfl

theorem savePenalty_waitlist (db : DB) (pen : UserPenalty) :
    (savePenalty db pen).waitlist = db.waitlist := by
  unfold savePenalty
  split <;> rfl

theorem reorder_waitlist_stations (db : DB) (sid : Nat) :
    (reorder_waitlist db sid).stations = db.stations := rfl

theorem reorder_waitlist_bookings (db : DB) (sid : Nat) :
    (reorder_waitlist db sid).bookings = db.bookings := rfl

theorem reorder_waitlist_penalties (db : DB) (sid : Nat) :
    (reorder_waitlist db sid).penalties = db.penalties := rfl

theorem promote_db_penalties (db : DB) (now : Int) (st : Station) (mp : Option Int) :
    (promote_waitlist_for_station db now st mp).db.penalties = db.penalties := by
  unfold promote_waitlist_for_station
  dsimp only
  split <;> rfl

theorem getOrCreatePenalty_congr {db db' : DB} (h : db'.penalties = db.penalties) (u : Nat) :
    getOrCreatePenalty db' u = getOrCreatePenalty db u := by
  unfold getOrCreatePenalty findPenalty
  rw [h]

theorem penalty_points_of_congr {db db' : DB} (h : db'.penalties = db.penalties) (u : Nat) :
    penalty_points_of db' u = penalty_points_of db u := by
  unfold penalty_points_of
  rw [getOrCreatePenalty_congr h]

theorem late_cancel_count_of_congr {db db' : DB} (h : db'.penalties = db.penalties) (u : Nat) :
    late_cancel_count_of db' u = late_cancel_count_of db u := by
  unfold late_cancel_count_of
  rw [getOrCreatePenalty_congr h]

theorem blocked_until_of_congr {db db' : DB} (h : db'.penalties = db.penalties) (u : Nat) :
    blocked_until_of db' u = blocked_until_of db u := by
  unfold blocked_until_of
  rw [getOrCreatePenalty_congr h]

theorem getOrCreatePenalty_user (db : DB) (u : Nat) : (getOrCreatePenalty db u).user = u := by
  unfold getOrCreatePenalty findPenalty findPenaltyL
  cases hf : db.penalties.find? (fun p => p.user == u) with
  | none => rfl
  | some p =>
    have := List.find?_some hf
    simpa using this

theorem findPenaltyL_replace (ps : List UserPenalty) (pen : UserPenalty)
    (h : (findPenaltyL ps pen.user).isSome) :
    findPenaltyL (ps.map (fun p => if p.user == pen.user then pen else p)) pen.user
      = some pen := by
  induction ps with
  | nil => simp [findPenaltyL] at h
  | cons p ps ih =>
    by_cases hp : p.user == pen.user
    · unfold findPenaltyL
      simp only [List.map_cons, if_pos hp]
      rw [List.find?_cons_of_pos _ (by simp)]
    · unfold findPenaltyL at h ⊢
      simp only [List.map_cons, if_neg hp]
      rw [List.find?_cons_of_neg _ (by simpa using hp)]
      rw [List.find?_cons_of_neg _ (by simpa using hp)] at h
      exact ih h

theorem findPenalty_savePenalty (db : DB) (pen : UserPenalty) :
    findPenalty (savePenalty db pen) pen.user = some pen := by
  unfold savePenalty
  split
  · next h => exact findPenaltyL_replace db.penalties pen h
  · next h =>
    have hnone : findPenaltyL db.penalties pen.user = none := by
      cases hf : findPenaltyL db.penalties pen.user with
      | none => rfl
      | some q => rw [show findPenalty db pen.user = some q from hf] at h; simp at h
    unfold findPenalty findPenaltyL at hnone ⊢
    rw [List.find?_append, hnone]
    simp

theorem blocked_until_of_savePenalty (db : DB) (pen : UserPenalty) :
    blocked_until_of (savePenalty db pen) pen.user = pen.blocked_until := by
  unfold blocked_until_of getOrCreatePenalty
  rw [findPenalty_savePenalty]
  rfl

theorem penalty_points_of_savePenalty (db : DB) (pen : UserPenalty) :
    penalty_points_of (savePenalty db pen) pen.user = pen.penalty_points := by
  unfold penalty_points_of getOrCreatePenalty
  rw [findPenalty_savePenalty]
  rfl

theorem late_cancel_count_of_savePenalty (db : DB) (pen : UserPenalty) :
    late_cancel_count_of (savePenalty db pen) pen.user = pen.late_cancel_count := by
  unfold late_cancel_count_of getOrCreatePenalty
  rw [findPenalty_savePenalty]
  rfl

theorem penalty_points_of_late_cancel (db : DB) (u : Nat) :
    penalty_points_of (late_cancel_penalty db u) u = penalty_points_of db u + 1 := by
  unfold late_cancel_penalty
  dsimp only
  have h := penalty_points_of_savePenalty db
    { getOrCreatePenalty db u with
      late_cancel_count := (getOrCreatePenalty db u).late_cancel_count + 1,
      penalty_points := (getOrCreatePenalty db u).penalty_points + 1 }
  dsimp only at h
  rw [getOrCreatePenalty_user] at h
  rw [getOrCreatePenalty_user]
  exact h

theorem late_cancel_count_of_late_cancel (db : DB) (u : Nat) :
    late_cancel_count_of (late_cancel_penalty db u) u = late_cancel_count_of db u + 1 := by
  unfold late_cancel_penalty
  dsimp only
  have h := late_cancel_count_of_savePenalty db
    { getOrCreatePenalty db u with
      late_cancel_count := (getOrCreatePenalty db u).late_cancel_count + 1,
      penalty_points := (getOrCreatePenalty db u).penalty_points + 1 }
  dsimp only at h
  rw [getOrCreatePenalty_user] at h
  rw [getOrCreatePenalty_user]
  exact h

theorem promote_after_cancel_fst (db : DB) (now : Int) (sid : Nat) :
    (promote_after_cancel db now sid).1 = CancelResult.ok := by
  unfold promote_after_cancel
  split <;> rfl

theorem promote_after_cancel_penalties (db : DB) (now : Int) (sid : Nat) :
    (promote_after_cancel db now sid).2.penalties = db.penalties := by
  unfold promote_after_cancel
  split
  · exact promote_db_penalties _ now _ none
  · rfl

theorem cancel_booking_ok (db : DB) (now : Int) (u bid : Nat) (b : Booking)
    (hfind : db.bookings.find? (fun x => x.id == bid && x.user == u) = some b)
    (hactive : b.status = BookingStatus.active)
    (hstart : now < b.start_time) :
    (cancel_booking db now u bid).1 = CancelResult.ok := by
  unfold cancel_booking
  rw [hfind]
  dsimp only
  rw [if_neg (by simp [hactive]), if_neg (by omega)]
  exact promote_after_cancel_fst _ now _

theorem cancel_booking_penalties (db : DB) (now : Int) (u bid : Nat) (b : Booking)
    (hfind : db.bookings.find? (fun x => x.id == bid && x.user == u) = some b)
    (hactive : b.status = BookingStatus.active)
    (hstart : now < b.start_time) :
    (cancel_booking db now u bid).2.penalties
      = (if b.start_time - now ≤ 10 then late_cancel_penalty db u else db).penalties := by
  unfold cancel_booking
  rw [hfind]
  dsimp only
  rw [if_neg (by simp [hactive]), if_neg (by omega)]
  rw [promote_after_cancel_penalties]

/-! ### Claim C1, counterexample part -/

/-- Claim C1 as frozen is false on the code: at the one-slot station of
`c1db2`, two `RequestBooking` calls with disjoint windows both succeed, and
the window `[5, 20)` then overlaps two active bookings — more than the
station's total capacity 1. -/
theorem c1_counterexample :
    (create_booking c1db0 0 1 1 10 20).1 = .booked 1
    ∧ (create_booking c1db1 0 2 1 5 10).1 = .booked 2
    ∧ (findStation c1db2 1).map (fun s => s.total_slots) = some 1
    ∧ overlapping_count c1db2 1 5 20 = 2 := by
  refine ⟨by decide, by decide, by decide, by decide⟩

/-! ### Claim C2: penalty escalation diverges between the two paths -/

/-- Claim C2: the two penalty-adding paths do not apply one consistent
escalation policy.  Starting from 2 penalty points, adding the third point
via the late-cancel branch of `cancel_booking` leaves `blocked_until`
unset, while adding it via the reconciliation expiry sweep sets
`blocked_until = now + 24h` (and `views.add_penalty`, the third variant in
the source, would set `now + 5min`), so the resulting `blocked_until`
depends on the path. -/
theorem c2_penalty_divergence :
    (cancel_booking c2dbA 0 1 1).1 = .ok
    ∧ penalty_points_of (cancel_booking c2dbA 0 1 1).2 1 = 3
    ∧ blocked_until_of (cancel_booking c2dbA 0 1 1).2 1 = none
    ∧ penalty_points_of (Scheduler.mark_completed_bookings c2dbB 0) 2 = 3
    ∧ blocked_until_of (Scheduler.mark_completed_bookings c2dbB 0) 2 = some 1440
    ∧ blocked_until_of (Views.add_penalty c2dbB 0 2 1) 2 = some 5 := by
  refine ⟨by decide, by decide, by decide, by decide, by decide, by decide⟩

/-! ### Claim C3: the sweep does not run the cancellation promotion -/

/-- Claim C3: the reconciliation expiry sweep does not invoke the promotion
logic that cancellation uses.  On `c3db` (expired booking, one waiting
user, slot now free) the sweep only flips the head entry's `notified` flag:
the waitlist entry survives and no new booking is created, whereas
`promote_waitlist_for_station` — the routine `cancel_booking` calls — run
on the very same post-sweep state would create an active booking for the
waiting user 2 and delete the entry. -/
theorem c3_sweep_promotion_divergence :
    c3dbAfter.waitlist.map (fun e => (e.user, e.notified)) = [(2, true)]
    ∧ c3dbAfter.bookings.map (fun b => (b.id, b.user, b.status)) = [(1, 1, .completed)]
    ∧ (promote_waitlist_for_station c3dbAfter 0 st1 none).users = [2]
    ∧ (promote_waitlist_for_station c3dbAfter 0 st1 none).db.waitlist = []
    ∧ ((promote_waitlist_for_station c3dbAfter 0 st1 none).db.bookings.map
        (fun b => (b.user, b.status))) = [(1, .completed), (2, .active)] := by
  refine ⟨by decide, by decide, by decide, by decide, by decide⟩

/-! ### Claim C4, counterexample part -/

/-- Claim C4 as frozen is false on the code: in `c4db` stored positions
disagree with creation order, and `promote_waitlist_for_station` promotes
the position-1 entry (user 20, created at time 2) rather than the
earliest-created entry (user 10, created at time 1). -/
theorem c4_counterexample :
    (promote_waitlist_for_station c4db 0 st1 none).users = [20]
    ∧ ((promote_waitlist_for_station c4db 0 st1 none).db.waitlist.map (fun e => e.user)) = [10]
    ∧ (c4db.waitlist.map (fun e => (e.user, e.position, e.created_at)))
        = [(10, 2, 1), (20, 1, 2)] := by
  refine ⟨by decide, by decide, by decide⟩

/-! ### Claim C5, counterexample part -/

/-- Claim C5 as frozen is false on the code: with a stored block expiry of
100 and `now = 0`, the rejected request carries the capped expiry 5 rather
than the stored 100, and the penalty record is mutated (its
`blocked_until` is overwritten with the cap). -/
theorem c5_counterexample :
    (create_booking c5db 0 1 1 20 30).1 = .blocked 5
    ∧ (create_booking c5db 0 1 1 20 30).1 ≠ .blocked 100
    ∧ blocked_until_of c5db 1 = some 100
    ∧ blocked_until_of (create_booking c5db 0 1 1 20 30).2 1 = some 5 := by
  refine ⟨by decide, by decide, by decide, by decide⟩

/-! ### Claim C6: the expiry sweep breaks the upper slot bound -/

/-- Claim C6: the expiry sweep violates `available_slots ≤ total_slots`.
`c3db` satisfies the bounds (1 ≤ 1), yet after one sweep the station shows
`available_slots = 2 > total_slots = 1`, because `mark_completed_bookings`
increments without the clamp that `cancel_booking` (and `cron.py`) apply. -/
theorem c6_slot_bound_violation :
    (findStation c3db 1).map (fun s => (s.available_slots, s.total_slots)) = some (1, 1)
    ∧ (findStation c3dbAfter 1).map (fun s => (s.available_slots, s.total_slots)) = some (2, 1) := by
  refine ⟨by decide, by decide⟩

theorem create_booking_main_not_blocked (db : DB) (now : Int) (u sid : Nat)
    (s_t e_t : Int) (x : Int) :
    (create_booking_main db now u sid s_t e_t).1 ≠ RequestResult.blocked x := by
  unfold create_booking_main
  dsimp only
  split
  · simp
  · split
    · simp
    · split
      · split <;> simp
      · simp

/-! ### Lemmas about position assignment and reordering -/

theorem wlKeyLE_congr {a a' b b' : WaitlistEntry}
    (ha1 : a.created_at = a'.created_at) (ha2 : a.id = a'.id)
    (hb1 : b.created_at = b'.created_at) (hb2 : b.id = b'.id) :
    wlKeyLE a b ↔ wlKeyLE a' b' := by
  unfold wlKeyLE
  rw [ha1, ha2, hb1, hb2]

theorem assign_positions_length (n : Int) (l : List WaitlistEntry) :
    (assign_positions n l).length = l.length := by
  induction l generalizing n with
  | nil => rfl
  | cons e es ih => simp [assign_positions, ih]

theorem map_position_assign (n : Int) (l : List WaitlistEntry) :
    (assign_positions n l).map (fun e => e.position) = intRange n l.length := by
  induction l generalizing n with
  | nil => rfl
  | cons e es ih => simp [assign_positions, intRange, ih]

theorem mem_assign_positions {x : WaitlistEntry} :
    ∀ {l : List WaitlistEntry} {n : Int}, x ∈ assign_positions n l →
      ∃ e ∈ l, x.created_at = e.created_at ∧ x.id = e.id ∧ x.station = e.station := by
  intro l
  induction l with
  | nil => intro n h; cases h
  | cons e es ih =>
    intro n h
    rcases List.mem_cons.mp h with h | h
    · exact ⟨e, List.mem_cons_self e es, by rw [h], by rw [h], by rw [h]⟩
    · rcases ih h with ⟨e', he', h1, h2, h3⟩
      exact ⟨e', List.mem_cons_of_mem e he', h1, h2, h3⟩

theorem sorted_assign_positions :
    ∀ (l : List WaitlistEntry), List.Sorted wlKeyLE l →
      ∀ n, List.Sorted wlKeyLE (assign_positions n l) := by
  intro l
  induction l with
  | nil => intro _ _; exact List.sorted_nil
  | cons e es ih =>
    intro h n
    rw [List.sorted_cons] at h
    rw [assign_positions, List.sorted_cons]
    constructor
    · intro b hb
      rcases mem_assign_positions hb with ⟨e', he', hc, hid, _⟩
      exact (wlKeyLE_congr rfl rfl hc hid).mpr (h.1 e' he')
    · exact ih h.2 (n + 1)

theorem filter_filter_of_imp {α : Type} (p q : α → Bool) (l : List α)
    (h : ∀ a ∈ l, p a = true → q a = true) :
    (l.filter q).filter p = l.filter p := by
  rw [List.filter_filter]
  apply List.filter_congr
  intro a ha
  cases hp : p a
  · simp
  · simp [h a ha hp]

theorem DenseL_congr {wl wl' : List WaitlistEntry} {sid : Nat}
    (h : station_entriesL wl' sid = station_entriesL wl sid) :
    DenseL wl sid → DenseL wl' sid := by
  unfold DenseL
  rw [h]
  exact id

theorem Dense_congr_wl {db db' : DB} {sid : Nat} (h : db'.waitlist = db.waitlist) :
    Dense db sid → Dense db' sid := by
  intro hd
  unfold Dense at *
  rw [h]
  exact hd

theorem late_cancel_penalty_waitlist (db : DB) (u : Nat) :
    (late_cancel_penalty db u).waitlist = db.waitlist := by
  unfold late_cancel_penalty
  dsimp only
  exact savePenalty_waitlist db _

theorem station_entriesL_reorder_self (db : DB) (sid : Nat) :
    station_entriesL (reorder_waitlist db sid).waitlist sid
      = assign_positions 1
          (List.insertionSort wlKeyLE (station_entriesL db.waitlist sid)) := by
  unfold reorder_waitlist station_entriesL
  dsimp only
  rw [List.filter_append]
  have h1 : (db.waitlist.filter (fun e => !(e.station == sid))).filter
      (fun e => e.station == sid) = [] := by
    rw [List.filter_eq_nil_iff]
    intro a ha
    have := (List.mem_filter.mp ha).2
    simp at this
    simp [this]
  have h2 : (assign_positions 1
        (List.insertionSort wlKeyLE (db.waitlist.filter (fun e => e.station == sid)))).filter
      (fun e => e.station == sid)
      = assign_positions 1
          (List.insertionSort wlKeyLE (db.waitlist.filter (fun e => e.station == sid))) := by
    rw [List.filter_eq_self]
    intro a ha
    rcases mem_assign_positions ha with ⟨e, he, _, _, hstation⟩
    have hmem := (List.mem_insertionSort wlKeyLE).mp he
    have := (List.mem_filter.mp hmem).2
    rw [hstation]
    exact this
  rw [h1, h2, List.nil_append]

theorem dense_reorder (db : DB) (sid : Nat) : Dense (reorder_waitlist db sid) sid := by
  unfold Dense DenseL
  rw [station_entriesL_reorder_self]
  rw [List.Sorted.insertionSort_eq
    (sorted_assign_positions _ (List.sorted_insertionSort wlKeyLE _) 1)]
  rw [map_position_assign, assign_positions_length]

theorem station_entriesL_reorder_ne (db : DB) (sid sid' : Nat) (h : sid' ≠ sid) :
    station_entriesL (reorder_waitlist db sid).waitlist sid'
      = station_entriesL db.waitlist sid' := by
  unfold reorder_waitlist station_entriesL
  dsimp only
  rw [List.filter_append]
  have h2 : (assign_positions 1
        (List.insertionSort wlKeyLE (db.waitlist.filter (fun e => e.station == sid)))).filter
      (fun e => e.station == sid') = [] := by
    rw [List.filter_eq_nil_iff]
    intro a ha
    rcases mem_assign_positions ha with ⟨e, he, _, _, hstation⟩
    have hmem := (List.mem_insertionSort wlKeyLE).mp he
    have he' := (List.mem_filter.mp hmem).2
    have hes : e.station = sid := by simpa using he'
    simp [hstation, hes]
    omega
  rw [h2, List.append_nil]
  apply filter_filter_of_imp
  intro a _ hp
  have hav : a.station = sid' := by simpa using hp
  simp [hav]
  omega

theorem promote_loop_waitlist (sid : Nat) (now : Int) :
    ∀ (ws : List WaitlistEntry) (bs : List Booking) (wl : List WaitlistEntry) (nid : Nat),
      (promote_loop sid now ws (bs, wl, nid)).2.1
        = wl.filter (fun w => !(ws.any (fun e => w.id == e.id))) := by
  intro ws
  induction ws with
  | nil =>
    intro bs wl nid
    simp [promote_loop]
  | cons e es ih =>
    intro bs wl nid
    rw [show promote_loop sid now (e :: es) (bs, wl, nid)
        = promote_loop sid now es
            (bs ++ [{ id := nid, user := e.user, station := sid,
                      start_time := now + 5, end_time := now + 35,
                      status := .active }],
             wl.filter (fun w => !(w.id == e.id)), nid + 1) from rfl]
    rw [ih, List.filter_filter]
    apply List.filter_congr
    intro a ha
    simp only [List.any_cons, Bool.not_or, Bool.and_comm]

theorem dense_promote (db : DB) (now : Int) (st : Station) (mp : Option Int)
    (hids : (db.waitlist.map (fun e => e.id)).Nodup)
    (hdense : ∀ sid, Dense db sid) :
    ∀ sid', Dense (promote_waitlist_for_station db now st mp).db sid' := by
  intro sid'
  unfold promote_waitlist_for_station
  dsimp only
  split
  · exact hdense sid'
  · by_cases hsid : sid' = st.id
    · subst hsid
      exact dense_reorder _ _
    · have hd : DenseL db.waitlist sid' := hdense sid'
      unfold Dense
      refine DenseL_congr ?_ hd
      rw [station_entriesL_reorder_ne _ _ _ hsid]
      rw [promote_loop_waitlist]
      unfold station_entriesL
      apply filter_filter_of_imp
      intro a ha hp
      simp only [Bool.not_eq_true', List.any_eq_false]
      intro e he heq
      have haid : a.id = e.id := by simpa using heq
      have hew : e ∈ List.insertionSort promoLE
          (db.waitlist.filter (fun x => x.station == st.id)) := List.mem_of_mem_take he
      have hef : e ∈ db.waitlist.filter (fun x => x.station == st.id) :=
        (List.mem_insertionSort promoLE).mp hew
      have hemem : e ∈ db.waitlist := (List.mem_filter.mp hef).1
      have hest : e.station = st.id := by simpa using (List.mem_filter.mp hef).2
      have hae : a = e := List.inj_on_of_nodup_map hids ha hemem haid
      have hav : a.station = sid' := by simpa using hp
      rw [hae] at hav
      exact hsid (by rw [← hav, hest])

theorem dense_create_main (db : DB) (now : Int) (u sid : Nat) (s_t e_t : Int)
    (hdense : ∀ s, Dense db s) :
    ∀ sid', Dense (create_booking_main db now u sid s_t e_t).2 sid' := by
  intro sid'
  unfold create_booking_main
  dsimp only
  split
  · exact hdense sid'
  · split
    · exact hdense sid'
    · split
      · split
        · exact hdense sid'
        · by_cases hs : sid' = sid
          · subst hs
            exact dense_reorder _ _
          · have hd : DenseL db.waitlist sid' := hdense sid'
            unfold Dense
            refine DenseL_congr ?_ hd
            rw [station_entriesL_reorder_ne _ _ _ hs]
            unfold station_entriesL
            dsimp only
            rw [List.filter_append]
            have hne : ((sid : Nat) == sid') = false :=
              beq_eq_false_iff_ne.mpr (fun hh => hs hh.symm)
            simp [List.filter_cons, hne]
      · exact hdense sid'

theorem dense_create (db : DB) (now : Int) (u sid : Nat) (s_t e_t : Int)
    (hdense : ∀ s, Dense db s) :
    ∀ sid', Dense (create_booking db now u sid s_t e_t).2 sid' := by
  intro sid'
  unfold create_booking
  cases hpen : findPenalty db u with
  | none =>
    dsimp only
    exact dense_create_main db now u sid s_t e_t hdense sid'
  | some pen =>
    dsimp only
    cases hbu : pen.blocked_until with
    | none => exact dense_create_main db now u sid s_t e_t hdense sid'
    | some t =>
      dsimp only
      split
      · split
        · exact Dense_congr_wl (savePenalty_waitlist db _) (hdense sid')
        · exact hdense sid'
      · exact dense_create_main db now u sid s_t e_t hdense sid'

theorem dense_promote_after_cancel (db0 : DB) (now : Int) (sid0 : Nat)
    (hids : (db0.waitlist.map (fun e => e.id)).Nodup)
    (hdense : ∀ s, Dense db0 s) :
    ∀ sid', Dense (promote_after_cancel db0 now sid0).2 sid' := by
  intro sid'
  unfold promote_after_cancel
  split
  · exact dense_promote db0 now _ none hids hdense sid'
  · exact hdense sid'

theorem dense_cancel (db : DB) (now : Int) (u bid : Nat)
    (hids : (db.waitlist.map (fun e => e.id)).Nodup)
    (hdense : ∀ s, Dense db s) :
    ∀ sid', Dense (cancel_booking db now u bid).2 sid' := by
  intro sid'
  unfold cancel_booking
  dsimp only
  split
  · exact hdense sid'
  · split
    · exact hdense sid'
    · split
      · exact hdense sid'
      · refine dense_promote_after_cancel _ now _ ?_ ?_ sid'
        · dsimp only
          split
          · rw [late_cancel_penalty_waitlist]
            exact hids
          · exact hids
        · intro s
          refine Dense_congr_wl ?_ (hdense s)
          dsimp only
          split
          · exact late_cancel_penalty_waitlist db u
          · rfl

/-! ### Counting lemmas for the no-oversell invariant -/

theorem at_instant_append (bs : List Booking) (b : Booking) (sid : Nat) (t : Int) :
    at_instant_countL (bs ++ [b]) sid t
      = at_instant_countL bs sid t + (if coversB sid t b then 1 else 0) := by
  unfold at_instant_countL
  rw [List.countP_append]
  cases h : coversB sid t b <;>
    simp [List.countP_cons, List.countP_nil, h]

theorem at_instant_le_overlap (bs : List Booking) (sid : Nat) {s_t e_t t : Int}
    (hs : s_t ≤ t) (ht : t < e_t) :
    at_instant_countL bs sid t ≤ overlap_countL bs sid s_t e_t := by
  unfold at_instant_countL overlap_countL
  have h : bs.countP (coversB sid t) ≤ bs.countP (overlapB sid s_t e_t) := by
    apply List.countP_mono_left
    intro b hb hp
    unfold coversB at hp
    unfold overlapB
    simp only [Bool.and_eq_true, decide_eq_true_eq] at hp ⊢
    obtain ⟨⟨h1, h2⟩, h3⟩ := hp
    exact ⟨⟨h1, by omega⟩, by omega⟩
  exact_mod_cast h

theorem noOversell_congr {db db' : DB} (hs : db'.stations = db.stations)
    (hb : db'.bookings = db.bookings) (h : NoOversell db) : NoOversell db' := by
  unfold NoOversell at *
  rw [hs, hb]
  exact h

theorem noOversell_create_main (db : DB) (now : Int) (u sid : Nat) (s_t e_t : Int)
    (hids : (db.stations.map (fun s => s.id)).Nodup)
    (hno : NoOversell db) :
    NoOversell (create_booking_main db now u sid s_t e_t).2 := by
  unfold create_booking_main
  dsimp only
  split
  · exact hno
  · split
    · exact hno
    · next station hfind =>
      split
      · split
        · exact hno
        · exact hno
      · next hcap =>
        unfold findStation at hfind
        have hstmem : station ∈ db.stations := List.mem_of_find?_eq_some hfind
        have hstid : station.id = sid := by
          have := List.find?_some hfind
          simpa using this
        intro st' hst' t
        dsimp only at hst'
        rcases List.mem_map.mp hst' with ⟨s, hsmem, rfl⟩
        have hfs :
            ((if s.id == sid then { s with available_slots := max 0 (s.available_slots - 1) }
              else s) : Station).id = s.id
            ∧ ((if s.id == sid then { s with available_slots := max 0 (s.available_slots - 1) }
              else s) : Station).total_slots = s.total_slots := by
          split <;> exact ⟨rfl, rfl⟩
        rw [hfs.1, hfs.2]
        dsimp only
        rw [at_instant_append]
        by_cases hcov : coversB s.id t
            { id := db.nextBookingId, user := u, station := sid,
              start_time := s_t, end_time := e_t, status := .active }
        · have hcov' := hcov
          unfold coversB at hcov'
          simp only [Bool.and_eq_true, decide_eq_true_eq, beq_iff_eq] at hcov'
          obtain ⟨⟨⟨hsid, _⟩, hst1⟩, hst2⟩ := hcov'
          have hmono : at_instant_countL db.bookings s.id t
              ≤ overlap_countL db.bookings sid s_t e_t := by
            rw [show s.id = sid from hsid.symm]
            exact at_instant_le_overlap db.bookings sid hst1 hst2
          have hseq : s = station := by
            apply List.inj_on_of_nodup_map hids hsmem hstmem
            rw [hstid]
            exact hsid.symm
          have hcap' : overlap_countL db.bookings sid s_t e_t < s.total_slots := by
            rw [hseq]
            unfold overlapping_count at hcap
            omega
          rw [if_pos hcov]
          omega
        · rw [if_neg hcov]
          have := hno s hsmem t
          omega

/-! ### Claim C1, amended part -/

/-- Claim C1 (amended): quantifying over all windows is too strong (two
non-overlapping bookings can both overlap one longer window, as
`c1_counterexample` shows), but at the granularity of single instants
`RequestBooking` never oversells: if every instant of every station is
covered by at most `total_slots` active bookings before the call, the same
holds after it; and a request for a window whose overlap count already
reached capacity creates no booking and yields a waitlist outcome. -/
theorem c1_no_oversell_amended (db : DB) (now : Int) (u sid : Nat) (s_t e_t : Int)
    (hids : (db.stations.map (fun s => s.id)).Nodup)
    (hno : NoOversell db) :
    NoOversell (create_booking db now u sid s_t e_t).2
    ∧ (notBlocked db u now → s_t < e_t →
        ∀ st, findStation db sid = some st →
          st.total_slots ≤ overlapping_count db sid s_t e_t →
          (create_booking db now u sid s_t e_t).2.bookings = db.bookings
          ∧ isWaitlistOutcome (create_booking db now u sid s_t e_t).1 = true) := by
  constructor
  · unfold create_booking
    cases hpen : findPenalty db u with
    | none =>
      dsimp only
      exact noOversell_create_main db now u sid s_t e_t hids hno
    | some pen =>
      dsimp only
      cases hbu : pen.blocked_until with
      | none => exact noOversell_create_main db now u sid s_t e_t hids hno
      | some t =>
        dsimp only
        split
        · split
          · exact noOversell_congr (savePenalty_stations _ _) (savePenalty_bookings _ _) hno
          · exact hno
        · exact noOversell_create_main db now u sid s_t e_t hids hno
  · intro hnb hr st hst hfull
    have hmain :
        (create_booking_main db now u sid s_t e_t).2.bookings = db.bookings
        ∧ isWaitlistOutcome (create_booking_main db now u sid s_t e_t).1 = true := by
      unfold create_booking_main
      rw [if_neg (by omega : ¬ e_t ≤ s_t), hst]
      dsimp only
      rw [if_pos hfull]
      split
      · exact ⟨rfl, rfl⟩
      · exact ⟨rfl, rfl⟩
    unfold create_booking
    cases hpen : findPenalty db u with
    | none =>
      dsimp only
      exact hmain
    | some pen =>
      dsimp only
      cases hbu : pen.blocked_until with
      | none => exact hmain
      | some t =>
        have hble : blocked_until_of db u = some t := by
          unfold blocked_until_of getOrCreatePenalty
          rw [hpen]
          exact hbu
        have ht : t ≤ now := hnb t hble
        dsimp only
        rw [if_neg (by omega : ¬ now < t)]
        exact hmain

/-- Witness for C1 (amended): the empty one-slot database satisfies the
instant-level invariant, and it is preserved by a concrete booking. -/
theorem c1_no_oversell_amended_witness :
    NoOversell (create_booking c1db0 0 1 1 0 10).2 :=
  (c1_no_oversell_amended c1db0 0 1 1 0 10 (by decide)
    (by
      intro st hst t
      have hst1 : st = st1 := by simpa [c1db0] using hst
      subst hst1
      unfold at_instant_countL
      norm_num [c1db0, st1])).1

/-! ### Claim C4, amended part -/

/-- Claim C4 (amended): promotion selects waitlist entries in ascending
order of their stored `position` field (with creation time, then row id, as
tie breaks), not by creation time alone: whenever the station has a free
slot and a non-empty waitlist, the first promoted entry is one that is
minimal under this `(position, created_at, id)` order.  Earliest-created
entries are therefore promoted first only in states where position order
agrees with creation order. -/
theorem c4_promotion_order_amended (db : DB) (now : Int) (st : Station)
    (hfree : active_countL db.bookings st.id < st.total_slots)
    (hne : station_entriesL db.waitlist st.id ≠ []) :
    ∃ e ∈ station_entriesL db.waitlist st.id,
      (promote_waitlist_for_station db now st none).users.head? = some e.user
      ∧ ∀ e' ∈ station_entriesL db.waitlist st.id, promoLE e e' := by
  unfold station_entriesL at hne ⊢
  cases hs : List.insertionSort promoLE (db.waitlist.filter (fun e => e.station == st.id)) with
  | nil =>
    exfalso
    apply hne
    have := (List.perm_insertionSort promoLE
      (db.waitlist.filter (fun e => e.station == st.id))).length_eq
    rw [hs] at this
    exact List.length_eq_zero.mp this.symm
  | cons e rest =>
    have hes : e ∈ db.waitlist.filter (fun e => e.station == st.id) := by
      rw [← List.mem_insertionSort (r := promoLE), hs]
      exact List.mem_cons_self e rest
    refine ⟨e, hes, ?_, ?_⟩
    · unfold promote_waitlist_for_station
      dsimp only
      rw [if_neg (by omega : ¬ st.total_slots - active_countL db.bookings st.id ≤ 0)]
      dsimp only
      rw [hs]
      cases hn : (st.total_slots - active_countL db.bookings st.id).toNat with
      | zero =>
        exfalso
        have := Int.toNat_eq_zero.mp hn
        omega
      | succ n =>
        rw [List.take_succ_cons, List.map_cons]
        rfl
    · intro e' he'
      have hsort := List.sorted_insertionSort promoLE
        (db.waitlist.filter (fun e => e.station == st.id))
      rw [hs, List.sorted_cons] at hsort
      have he's : e' ∈ e :: rest := by
        rw [← hs, List.mem_insertionSort]
        exact he'
      rcases List.mem_cons.mp he's with h | h
      · subst h
        exact (IsTotal.total (r := promoLE) e' e').elim id id
      · exact hsort.1 e' h

/-- Witness for C4 (amended): on `c10db` (free one-slot station, one
waiting entry) the promoted head is the minimal entry. -/
theorem c4_promotion_order_amended_witness :
    ∃ e ∈ station_entriesL c10db.waitlist st1.id,
      (promote_waitlist_for_station c10db 0 st1 none).users.head? = some e.user
      ∧ ∀ e' ∈ station_entriesL c10db.waitlist st1.id, promoLE e e' :=
  c4_promotion_order_amended c10db 0 st1 (by decide) (by decide)

/-! ### Claim C5, amended part -/

/-- Claim C5 (amended): a request by a user whose `blocked_until` lies in
the future fails with a blocked error and creates no booking or waitlist
entry, but the error carries `min(stored expiry, now + 5 minutes)` — not
necessarily the stored expiry — and the stored `blocked_until` is capped to
that value (so the record is mutated whenever the stored block exceeds the
5-minute cap); once the user's block no longer lies in the future, requests
are never rejected as blocked. -/
theorem c5_blocked_request_amended (db : DB) (now : Int) (u sid : Nat) (s_t e_t : Int) :
    (∀ t, blocked_until_of db u = some t → now < t →
      (create_booking db now u sid s_t e_t).1 = .blocked (min t (now + 5))
      ∧ (create_booking db now u sid s_t e_t).2.bookings = db.bookings
      ∧ (create_booking db now u sid s_t e_t).2.waitlist = db.waitlist
      ∧ blocked_until_of (create_booking db now u sid s_t e_t).2 u = some (min t (now + 5)))
    ∧ (notBlocked db u now →
        ∀ x, (create_booking db now u sid s_t e_t).1 ≠ RequestResult.blocked x) := by
  constructor
  · intro t hblk hnow
    unfold create_booking
    cases hpen : findPenalty db u with
    | none =>
      exfalso
      unfold blocked_until_of getOrCreatePenalty at hblk
      rw [hpen] at hblk
      cases hblk
    | some pen =>
      have hpu : pen.user = u := by
        have := List.find?_some hpen
        simpa using this
      have hbu : pen.blocked_until = some t := by
        unfold blocked_until_of getOrCreatePenalty at hblk
        rw [hpen] at hblk
        exact hblk
      dsimp only
      rw [hbu]
      dsimp only
      rw [if_pos hnow]
      by_cases hc : now + 5 < t
      · rw [if_pos hc]
        have hmin : min t (now + 5) = now + 5 := min_eq_right (by omega)
        refine ⟨by rw [hmin], savePenalty_bookings _ _, savePenalty_waitlist _ _, ?_⟩
        have h := blocked_until_of_savePenalty db { pen with blocked_until := some (now + 5) }
        dsimp only at h ⊢
        rw [hpu] at h
        rw [hpu, h, hmin]
      · rw [if_neg hc]
        have hmin : min t (now + 5) = t := min_eq_left (by omega)
        exact ⟨by rw [hmin], rfl, rfl, by rw [hmin]; exact hblk⟩
  · intro hnb x
    unfold create_booking
    cases hpen : findPenalty db u with
    | none =>
      dsimp only
      exact create_booking_main_not_blocked db now u sid s_t e_t x
    | some pen =>
      dsimp only
      cases hbu : pen.blocked_until with
      | none => exact create_booking_main_not_blocked db now u sid s_t e_t x
      | some t =>
        have hble : blocked_until_of db u = some t := by
          unfold blocked_until_of getOrCreatePenalty
          rw [hpen]
          exact hbu
        have ht : t ≤ now := hnb t hble
        dsimp only
        rw [if_neg (by omega : ¬ now < t)]
        exact create_booking_main_not_blocked db now u sid s_t e_t x

/-- Witness for C5 (amended): user 1 of `c5db` is blocked until 100 at
`now = 0`; the request is rejected carrying `min 100 5 = 5`, nothing is
booked or queued, and the stored block is capped to 5. -/
theorem c5_blocked_request_amended_witness :
    (create_booking c5db 0 1 1 20 30).1 = .blocked (min 100 (0 + 5))
    ∧ (create_booking c5db 0 1 1 20 30).2.bookings = c5db.bookings
    ∧ (create_booking c5db 0 1 1 20 30).2.waitlist = c5db.waitlist
    ∧ blocked_until_of (create_booking c5db 0 1 1 20 30).2 1 = some (min 100 (0 + 5)) :=
  (c5_blocked_request_amended c5db 0 1 1 20 30).1 100 (by decide) (by decide)

/-! ### Claim C7: the late-cancel penalty point -/

/-- Claim C7: a successful `cancel_booking` of an active booking with
`start_time > now` adds exactly one penalty point (and one late-cancel
count) to the owner iff `start_time - now ≤ 10` minutes, and adds nothing
otherwise. -/
theorem c7_late_cancel_penalty (db : DB) (now : Int) (u bid : Nat) (b : Booking)
    (hfind : db.bookings.find? (fun x => x.id == bid && x.user == u) = some b)
    (hactive : b.status = BookingStatus.active)
    (hstart : now < b.start_time) :
    (cancel_booking db now u bid).1 = CancelResult.ok
    ∧ penalty_points_of (cancel_booking db now u bid).2 u
        = penalty_points_of db u + (if b.start_time - now ≤ 10 then 1 else 0)
    ∧ late_cancel_count_of (cancel_booking db now u bid).2 u
        = late_cancel_count_of db u + (if b.start_time - now ≤ 10 then 1 else 0) := by
  have hp := cancel_booking_penalties db now u bid b hfind hactive hstart
  refine ⟨cancel_booking_ok db now u bid b hfind hactive hstart, ?_, ?_⟩
  · rw [penalty_points_of_congr hp]
    by_cases hlate : b.start_time - now ≤ 10
    · rw [if_pos hlate, if_pos hlate, penalty_points_of_late_cancel]
    · rw [if_neg hlate, if_neg hlate]
      omega
  · rw [late_cancel_count_of_congr hp]
    by_cases hlate : b.start_time - now ≤ 10
    · rw [if_pos hlate, if_pos hlate, late_cancel_count_of_late_cancel]
    · rw [if_neg hlate, if_neg hlate]
      omega

/-- Witness for C7: cancelling the booking of `c2dbA` (which starts 5
minutes from now) adds exactly one point; the early cancellation of `c7db`
(starting 50 minutes from now) adds none. -/
theorem c7_late_cancel_penalty_witness :
    (cancel_booking c2dbA 0 1 1).1 = CancelResult.ok
    ∧ penalty_points_of (cancel_booking c2dbA 0 1 1).2 1
        = penalty_points_of c2dbA 1 + (if (5 : Int) - 0 ≤ 10 then 1 else 0) := by
  have h := c7_late_cancel_penalty c2dbA 0 1 1
    { id := 1, user := 1, station := 1, start_time := 5, end_time := 60, status := .active }
    (by decide) (by decide) (by decide)
  exact ⟨h.1, h.2.1⟩

/-! ### Claim C8: waitlist idempotence -/

/-- Claim C8: a repeated `RequestBooking` by an already-waitlisted user at
a full station returns the stored position of the existing entry and
leaves the whole database unchanged. -/
theorem c8_waitlist_idempotent (db : DB) (now : Int) (u sid : Nat) (s_t e_t : Int)
    (st : Station) (w : WaitlistEntry)
    (hnb : notBlocked db u now)
    (hr : s_t < e_t)
    (hst : findStation db sid = some st)
    (hfull : st.total_slots ≤ overlapping_count db sid s_t e_t)
    (hw : db.waitlist.find? (fun w => w.user == u && w.station == sid) = some w) :
    create_booking db now u sid s_t e_t = (.alreadyWaitlisted w.position, db) := by
  have hmain : create_booking_main db now u sid s_t e_t = (.alreadyWaitlisted w.position, db) := by
    unfold create_booking_main
    rw [if_neg (by omega)]
    rw [hst]
    dsimp only
    rw [if_pos hfull, hw]
  unfold create_booking
  cases hpen : findPenalty db u with
  | none =>
    dsimp only
    exact hmain
  | some pen =>
    dsimp only
    cases hbu : pen.blocked_until with
    | none => exact hmain
    | some t =>
      have hble : blocked_until_of db u = some t := by
        unfold blocked_until_of getOrCreatePenalty
        rw [hpen]
        exact hbu
      have ht : t ≤ now := hnb t hble
      dsimp only
      rw [if_neg (by omega : ¬ now < t)]
      exact hmain

/-- Witness for C8: at the full one-slot station of `c8db`, user 1 (already
waitlisted at position 1) repeats the request and gets position 1 back with
the database untouched. -/
theorem c8_waitlist_idempotent_witness :
    create_booking c8db 0 1 1 10 20 = (.alreadyWaitlisted 1, c8db) := by
  have h := c8_waitlist_idempotent c8db 0 1 1 10 20 st1
    { id := 1, user := 1, station := 1, position := 1, notified := false, created_at := -5 }
    (by intro t ht; rw [show blocked_until_of c8db 1 = none from by decide] at ht; cases ht)
    (by decide) (by decide) (by decide) (by decide)
  exact h

/-! ### Claim C9: dense waitlist positions -/

/-- Claim C9: from any state whose waitlist rows have distinct primary keys
and dense, creation-ordered positions at every station, each core mutating
operation — a booking request (which may insert a waitlist entry), a
promotion (which removes entries), and a cancellation (which triggers a
promotion) — again leaves every station's positions exactly `1..N` in
creation order. -/
theorem c9_dense_positions (db : DB) (now : Int)
    (hids : (db.waitlist.map (fun e => e.id)).Nodup)
    (hdense : ∀ sid, Dense db sid) :
    (∀ u sid s_t e_t sid', Dense (create_booking db now u sid s_t e_t).2 sid')
    ∧ (∀ st mp sid', Dense (promote_waitlist_for_station db now st mp).db sid')
    ∧ (∀ u bid sid', Dense (cancel_booking db now u bid).2 sid') :=
  ⟨fun u sid s_t e_t sid' => dense_create db now u sid s_t e_t hdense sid',
   fun st mp sid' => dense_promote db now st mp hids hdense sid',
   fun u bid sid' => dense_cancel db now u bid hids hdense sid'⟩

theorem c8db_dense : ∀ sid, Dense c8db sid := by
  intro sid
  by_cases h : sid = 1
  · subst h
    unfold Dense DenseL
    decide
  · have hf : ((1 : Nat) == sid) = false :=
      beq_eq_false_iff_ne.mpr (fun hh => h hh.symm)
    unfold Dense DenseL station_entriesL
    simp [c8db, List.filter_cons, hf, intRange]

/-- Witness for C9: on `c8db` (full station, one waitlisted user) a fresh
request by user 2 appends a waitlist entry, a promotion removes one, and a
cancellation by user 5 frees the slot and promotes — positions at station 1
stay dense each time. -/
theorem c9_dense_positions_witness :
    Dense (create_booking c8db 0 2 1 10 20).2 1
    ∧ Dense (promote_waitlist_for_station c8db 0 st1 none).db 1
    ∧ Dense (cancel_booking c8db 0 5 1).2 1 := by
  have h := c9_dense_positions c8db 0 (by decide) c8db_dense
  exact ⟨h.1 2 1 10 20 1, h.2.1 st1 none 1, h.2.2 5 1 1⟩

/-! ### Claim C10: promotion never consults the penalty table -/

/-- Claim C10: `promote_waitlist_for_station` ignores penalty blocks — its
promoted users, resulting waitlist and resulting bookings are the same for
every possible penalty table, and it never writes the penalty table; in
particular on `c10db` it promotes user 9 into an active booking and deletes
the entry even though user 9 is blocked until time 1000 > now. -/
theorem c10_promotion_ignores_blocks :
    (∀ (db : DB) (P : List UserPenalty) (now : Int) (st : Station) (mp : Option Int),
      (promote_waitlist_for_station { db with penalties := P } now st mp).users
        = (promote_waitlist_for_station db now st mp).users
      ∧ (promote_waitlist_for_station { db with penalties := P } now st mp).db.waitlist
        = (promote_waitlist_for_station db now st mp).db.waitlist
      ∧ (promote_waitlist_for_station { db with penalties := P } now st mp).db.bookings
        = (promote_waitlist_for_station db now st mp).db.bookings
      ∧ (promote_waitlist_for_station db now st mp).db.penalties = db.penalties)
    ∧ (promote_waitlist_for_station c10db 0 st1 none).users = [9]
    ∧ (promote_waitlist_for_station c10db 0 st1 none).db.waitlist = []
    ∧ ((promote_waitlist_for_station c10db 0 st1 none).db.bookings.map
        (fun b => (b.user, b.status))) = [(9, BookingStatus.active)]
    ∧ blocked_until_of c10db 9 = some 1000
    ∧ (0 : Int) < 1000 := by
  refine ⟨?_, by decide, by decide, by decide, by decide, by decide⟩
  intro db P now st mp
  unfold promote_waitlist_for_station
  dsimp only
  by_cases h : st.total_slots - active_countL db.bookings st.id ≤ 0
  · rw [if_pos h, if_pos h]
    exact ⟨rfl, rfl, rfl, rfl⟩
  · rw [if_neg h, if_neg h]
    exact ⟨rfl, rfl, rfl, rfl⟩

end Obturo
